import Mathlib

/-!
Verification development for the common-emitter-amplifier simulator
(`CEASimulator` in `CEA.py`).

Modelling conventions
- The circuit parameters are Python floats whose defaults are exactly
  representable; the analytical formulas are embedded over `ℚ` (the DC
  operating point and AC small-signal parameters are rational functions of
  the inputs).  The frequency-response and waveform arrays involve
  `10 ** x`, `sqrt`, `log10`, `arctan` and `sin`, and are embedded over `ℝ`.
- Python raises `ZeroDivisionError` on float division by zero; each scalar
  division whose denominator can vanish is therefore modelled by an
  explicit guard returning `Except.error PyError.zeroDivision`.  Divisions
  happening inside numpy arrays do not raise in Python and are modelled by
  Lean's total division.
- `np.linspace`/`np.logspace` (the only numpy array constructors used) are
  embedded with numpy's documented semantics: `num` evenly spaced samples
  including both endpoints, the single sample being `start` when `num = 1`.
-/

/-- Error taxonomy for the model.  `zeroDivision` models Python's
`ZeroDivisionError`; `invalidParameter` models the `InvalidParameterError`
that the specification's error-handling section asks for (no code in the
source ever raises it). -/
inductive PyError where
  | zeroDivision
  | invalidParameter
deriving DecidableEq

/-- Circuit component values, mirroring the `CEAComponents` dataclass in
`CEA.py` field for field. -/
structure CEAComponents where
  Vcc : ℚ
  RB : ℚ
  RC : ℚ
  RE : ℚ
  C1 : ℚ
  C2 : ℚ
  CE : ℚ
  beta : ℚ
  VBE : ℚ
  Vin_amp : ℚ
  freq : ℚ
deriving DecidableEq

/-- Default component values of the `CEAComponents` dataclass
(`Vcc=12, RB=100e3, RC=4.7e3, RE=1e3, C1=10e-6, C2=10e-6, CE=100e-6,
beta=100, VBE=0.7, Vin_amp=0.01, freq=1000`). -/
def defaultComponents : CEAComponents :=
  ⟨12, 100000, 4700, 1000, 1 / 100000, 1 / 100000, 1 / 10000, 100,
    7 / 10, 1 / 100, 1000⟩

/-- The attributes stored by `CEASimulator.calculate_operating_point`:
the Thevenin pair `VTH`, `RTH` and the DC bias quantities. -/
structure OperatingPoint where
  VTH : ℚ
  RTH : ℚ
  IB : ℚ
  IC : ℚ
  IE : ℚ
  VE : ℚ
  VB : ℚ
  VC : ℚ
  VCE : ℚ
deriving DecidableEq

/-- The attributes stored by `CEASimulator.calculate_ac_analysis`. -/
structure ACParams where
  gm : ℚ
  Av_with_RE : ℚ
  Av_bypassed : ℚ
  Rin : ℚ
  Rout : ℚ
deriving DecidableEq

/-- Embedding of `CEASimulator.calculate_operating_point`.  The source
first computes `self.VTH = Vcc * RB / (RB + RB)` (raising
`ZeroDivisionError` when `RB + RB = 0`) and `self.RTH = RB`, then
`self.IB = (Vcc - VBE) / (RB + beta * RE)` (raising when that denominator
is zero), and then the remaining bias quantities. -/
def calculate_operating_point (c : CEAComponents) :
    Except PyError OperatingPoint :=
  if c.RB + c.RB = 0 then .error .zeroDivision
  else if c.RB + c.beta * c.RE = 0 then .error .zeroDivision
  else
    let IB := (c.Vcc - c.VBE) / (c.RB + c.beta * c.RE)
    let IC := c.beta * IB
    let IE := IC + IB
    let VE := IE * c.RE
    .ok ⟨c.Vcc * c.RB / (c.RB + c.RB), c.RB, IB, IC, IE, VE,
      c.VBE + VE, c.Vcc - IC * c.RC, (c.Vcc - IC * c.RC) - VE⟩

/-- Embedding of `CEASimulator.calculate_ac_analysis`.  It reads only
`self.IC` from the operating point.  The division producing
`Av_with_RE` raises `ZeroDivisionError` when `1 + gm * RE = 0`. -/
def calculate_ac_analysis (c : CEAComponents) (op : OperatingPoint) :
    Except PyError ACParams :=
  let gm := op.IC / 0.026
  if 1 + gm * c.RE = 0 then .error .zeroDivision
  else .ok ⟨gm, -gm * c.RC / (1 + gm * c.RE), -gm * c.RC, c.RB, c.RC⟩

/-- Snapshot of a `CEASimulator` instance after `calculate_all`:
the components plus all derived attributes. -/
structure CEAState where
  comp : CEAComponents
  op : OperatingPoint
  ac : ACParams
deriving DecidableEq

/-- Embedding of `CEASimulator.calculate_all` (run by the constructor):
operating point first, then AC analysis. -/
def simulate (c : CEAComponents) : Except PyError CEAState := do
  let op ← calculate_operating_point c
  let ac ← calculate_ac_analysis c op
  .ok ⟨c, op, ac⟩

deriving instance DecidableEq for Except

/-- The `CEASimulator` state for the default components, written out as
explicit rationals. -/
def default_op : OperatingPoint :=
  ⟨6, 100000, 113 / 2000000, 113 / 20000, 11413 / 2000000, 11413 / 2000,
    12813 / 2000, -2911 / 200, -40523 / 2000⟩

/-- The AC parameters for the default components, written out as explicit
rationals. -/
def default_ac : ACParams :=
  ⟨113 / 520, -26555 / 5676, -26555 / 26, 100000, 4700⟩

/-- The full simulator state for the default components. -/
def default_state : CEAState := ⟨defaultComponents, default_op, default_ac⟩

/-- Embedding of `np.linspace a b n` (documented numpy semantics with
`endpoint=True`): `n` evenly spaced samples `a + i * (b - a) / (n - 1)`,
the single sample being `a` when `n = 1`.  The arguments used by the
source are rational, so the samples are exact rationals. -/
def linspace (a b : ℚ) (n : ℕ) : List ℚ :=
  (List.range n).map (fun i : ℕ => a + (i : ℚ) * (b - a) / ((n : ℚ) - 1))

/-- Embedding of `np.logspace a b n` (base 10): `10` raised to each sample
of `linspace a b n`. -/
noncomputable def logspace (a b : ℚ) (n : ℕ) : List ℝ :=
  (linspace a b n).map (fun x : ℚ => (10 : ℝ) ^ (x : ℝ))

/-- The fixed high corner frequency `fc_high = 1e6` of
`calculate_frequency_response`. -/
def fc_high : ℝ := 1000000

/-- Embedding of `CEASimulator.calculate_frequency_response`, generalized
over the sample count `n`; the source fixes `n = 1000` (the third argument
of its `np.logspace(1, 6, 1000)` call), see
`calculate_frequency_response_default`.  It reads `self.Rin`,
`self.comp.C1` and `self.Av_bypassed`; the scalar division
`1 / (2 * pi * Rin * C1)` raises `ZeroDivisionError` when `Rin * C1 = 0`
and is guarded accordingly. -/
noncomputable def calculate_frequency_response (s : CEAState) (n : ℕ) :
    Except PyError (List ℝ × List ℝ × List ℝ) :=
  if s.ac.Rin * s.comp.C1 = 0 then .error .zeroDivision
  else
    let frequencies : List ℝ := logspace 1 6 n
    let fc_low : ℝ := 1 / (2 * Real.pi * (s.ac.Rin : ℝ) * (s.comp.C1 : ℝ))
    let gain_db : List ℝ := frequencies.map (fun f =>
      20 * Real.logb 10 (max
        (|(s.ac.Av_bypassed : ℝ)| * (f / Real.sqrt (f ^ 2 + fc_low ^ 2)) *
          (fc_high / Real.sqrt (f ^ 2 + fc_high ^ 2)))
        (1 / 10 ^ 10)))
    let phase : List ℝ := frequencies.map (fun f =>
      -180 + Real.arctan (f / fc_low) * 180 / Real.pi -
        Real.arctan (f / fc_high) * 180 / Real.pi)
    .ok (frequencies, gain_db, phase)

/-- The frequency response exactly as the source computes it, with the
sample count fixed at 1000. -/
noncomputable def calculate_frequency_response_default (s : CEAState) :
    Except PyError (List ℝ × List ℝ × List ℝ) :=
  calculate_frequency_response s 1000

/-- Embedding of `CEASimulator.get_waveforms t_points` (Python default
`t_points=1000`, see `get_waveforms_default`).  It reads `self.comp.freq`,
`self.comp.Vin_amp`, `self.Av_bypassed` and `self.VC`; the scalar division
`5 / freq` raises `ZeroDivisionError` when `freq = 0` and is guarded
accordingly.  The time samples are exact rationals; the voltages involve
`sin` and live in `ℝ`. -/
noncomputable def get_waveforms (s : CEAState) (t_points : ℕ) :
    Except PyError (List ℚ × List ℝ × List ℝ × List ℝ) :=
  if s.comp.freq = 0 then .error .zeroDivision
  else
    let t : List ℚ := linspace 0 (5 / s.comp.freq) t_points
    let vin : List ℝ := t.map (fun x : ℚ =>
      (s.comp.Vin_amp : ℝ) * Real.sin (2 * Real.pi * (s.comp.freq : ℝ) * (x : ℝ)))
    let vout : List ℝ := vin.map (fun v => (s.ac.Av_bypassed : ℝ) * v)
    let vout_total : List ℝ := vout.map (fun v => (s.op.VC : ℝ) + v)
    .ok (t, vin, vout, vout_total)

/-- The waveforms exactly as the dashboard calls them, with the Python
default `t_points = 1000`. -/
noncomputable def get_waveforms_default (s : CEAState) :
    Except PyError (List ℚ × List ℝ × List ℝ × List ℝ) :=
  get_waveforms s 1000

/-- C1: for every `CEAComponents` value on which the DC operating point is
computed (the two unguarded divisions succeed), the result satisfies
exactly `IB = (Vcc - VBE) / (RB + beta * RE)`, `IC = beta * IB`,
`IE = IC + IB`, `VE = IE * RE`, `VB = VBE + VE`, `VC = Vcc - IC * RC` and
`VCE = VC - VE`. -/
theorem operating_point_formulas (c : CEAComponents) (op : OperatingPoint)
    (h : calculate_operating_point c = .ok op) :
    op.IB = (c.Vcc - c.VBE) / (c.RB + c.beta * c.RE) ∧
    op.IC = c.beta * op.IB ∧
    op.IE = op.IC + op.IB ∧
    op.VE = op.IE * c.RE ∧
    op.VB = c.VBE + op.VE ∧
    op.VC = c.Vcc - op.IC * c.RC ∧
    op.VCE = op.VC - op.VE := by
  unfold calculate_operating_point at h
  split at h
  · exact absurd h (by simp)
  · split at h
    · exact absurd h (by simp)
    · cases h
      refine ⟨rfl, rfl, rfl, rfl, rfl, rfl, rfl⟩

/-- Witness for C1 at the default components. -/
theorem operating_point_formulas_witness :
    calculate_operating_point defaultComponents = .ok default_op ∧
    (default_op.IB =
        (defaultComponents.Vcc - defaultComponents.VBE) /
          (defaultComponents.RB + defaultComponents.beta * defaultComponents.RE) ∧
      default_op.IC = defaultComponents.beta * default_op.IB ∧
      default_op.IE = default_op.IC + default_op.IB ∧
      default_op.VE = default_op.IE * defaultComponents.RE ∧
      default_op.VB = defaultComponents.VBE + default_op.VE ∧
      default_op.VC = defaultComponents.Vcc - default_op.IC * defaultComponents.RC ∧
      default_op.VCE = default_op.VC - default_op.VE) :=
  have h : calculate_operating_point defaultComponents = .ok default_op := by
    norm_num [calculate_operating_point, defaultComponents, default_op]
  ⟨h, operating_point_formulas defaultComponents default_op h⟩

/-- Helper: the `IB` and `IC` fields of a successfully computed operating
point. -/
lemma op_ok_IB_IC (c : CEAComponents) (op : OperatingPoint)
    (h : calculate_operating_point c = .ok op) :
    op.IB = (c.Vcc - c.VBE) / (c.RB + c.beta * c.RE) ∧
    op.IC = c.beta * op.IB := by
  unfold calculate_operating_point at h
  split at h
  · exact absurd h (by simp)
  · split at h
    · exact absurd h (by simp)
    · cases h
      exact ⟨rfl, rfl⟩

/-- Helper: the fields of a successfully computed AC analysis. -/
lemma ac_ok_fields (c : CEAComponents) (op : OperatingPoint) (ac : ACParams)
    (h : calculate_ac_analysis c op = .ok ac) :
    ac.gm = op.IC / 0.026 ∧
    ac.Av_with_RE = -ac.gm * c.RC / (1 + ac.gm * c.RE) ∧
    ac.Av_bypassed = -ac.gm * c.RC ∧
    ac.Rin = c.RB ∧
    ac.Rout = c.RC := by
  simp only [calculate_ac_analysis] at h
  split at h
  · exact absurd h (by simp)
  · cases h
    exact ⟨rfl, rfl, rfl, rfl, rfl⟩

/-- C2: for every `CEAComponents` value, once the operating point has been
computed, the AC analysis result satisfies exactly `gm = IC / 0.026`,
`AvWithRE = -gm * RC / (1 + gm * RE)`, `AvBypassed = -gm * RC`,
`Rin = RB` and `Rout = RC`. -/
theorem ac_analysis_formulas (c : CEAComponents) (op : OperatingPoint)
    (ac : ACParams)
    (_hop : calculate_operating_point c = .ok op)
    (hac : calculate_ac_analysis c op = .ok ac) :
    ac.gm = op.IC / 0.026 ∧
    ac.Av_with_RE = -ac.gm * c.RC / (1 + ac.gm * c.RE) ∧
    ac.Av_bypassed = -ac.gm * c.RC ∧
    ac.Rin = c.RB ∧
    ac.Rout = c.RC :=
  ac_ok_fields c op ac hac

/-- Witness for C2 at the default components. -/
theorem ac_analysis_formulas_witness :
    calculate_operating_point defaultComponents = .ok default_op ∧
    calculate_ac_analysis defaultComponents default_op = .ok default_ac ∧
    (default_ac.gm = default_op.IC / 0.026 ∧
      default_ac.Av_with_RE =
        -default_ac.gm * defaultComponents.RC /
          (1 + default_ac.gm * defaultComponents.RE) ∧
      default_ac.Av_bypassed = -default_ac.gm * defaultComponents.RC ∧
      default_ac.Rin = defaultComponents.RB ∧
      default_ac.Rout = defaultComponents.RC) :=
  have hop : calculate_operating_point defaultComponents = .ok default_op := by
    norm_num [calculate_operating_point, defaultComponents, default_op]
  have hac : calculate_ac_analysis defaultComponents default_op = .ok default_ac := by
    norm_num [calculate_ac_analysis, defaultComponents, default_op, default_ac]
  ⟨hop, hac, ac_analysis_formulas defaultComponents default_op default_ac hop hac⟩

/-- C3: for every parameter set satisfying the specification's validity
bounds (here: `VBE ≤ Vcc`, `0 ≤ beta`, `0 ≤ RC`, `0 ≤ RE` and a positive
bias denominator `RB + beta * RE`), the magnitude of the gain with the
emitter resistor active is bounded by the bypassed gain:
`|AvWithRE| ≤ |AvBypassed|`. -/
theorem gain_with_RE_bounded_by_bypassed (c : CEAComponents)
    (op : OperatingPoint) (ac : ACParams)
    (hop : calculate_operating_point c = .ok op)
    (hac : calculate_ac_analysis c op = .ok ac)
    (hVBE : c.VBE ≤ c.Vcc) (hbeta : 0 ≤ c.beta) (_hRC : 0 ≤ c.RC)
    (hRE : 0 ≤ c.RE) (hden : 0 < c.RB + c.beta * c.RE) :
    |ac.Av_with_RE| ≤ |ac.Av_bypassed| := by
  obtain ⟨hIB, hIC⟩ := op_ok_IB_IC c op hop
  obtain ⟨hgm, hAvRE, hAvB, -, -⟩ := ac_ok_fields c op ac hac
  have hIBpos : 0 ≤ op.IB := by
    rw [hIB]
    exact div_nonneg (sub_nonneg.mpr hVBE) hden.le
  have hgmpos : 0 ≤ ac.gm := by
    rw [hgm, hIC]
    exact div_nonneg (mul_nonneg hbeta hIBpos) (by norm_num)
  have hone : (1 : ℚ) ≤ 1 + ac.gm * c.RE :=
    le_add_of_nonneg_right (mul_nonneg hgmpos hRE)
  rw [hAvRE, hAvB, abs_div, abs_of_pos (lt_of_lt_of_le one_pos hone)]
  exact div_le_self (abs_nonneg _) hone

/-- Witness for C3 at the default components. -/
theorem gain_with_RE_bounded_by_bypassed_witness :
    calculate_operating_point defaultComponents = .ok default_op ∧
    calculate_ac_analysis defaultComponents default_op = .ok default_ac ∧
    defaultComponents.VBE ≤ defaultComponents.Vcc ∧
    0 ≤ defaultComponents.beta ∧
    0 ≤ defaultComponents.RC ∧
    0 ≤ defaultComponents.RE ∧
    0 < defaultComponents.RB + defaultComponents.beta * defaultComponents.RE ∧
    |default_ac.Av_with_RE| ≤ |default_ac.Av_bypassed| :=
  have hop : calculate_operating_point defaultComponents = .ok default_op := by
    norm_num [calculate_operating_point, defaultComponents, default_op]
  have hac : calculate_ac_analysis defaultComponents default_op = .ok default_ac := by
    norm_num [calculate_ac_analysis, defaultComponents, default_op, default_ac]
  ⟨hop, hac, by norm_num [defaultComponents], by norm_num [defaultComponents],
    by norm_num [defaultComponents], by norm_num [defaultComponents],
    by norm_num [defaultComponents],
    gain_with_RE_bounded_by_bypassed defaultComponents default_op default_ac
      hop hac (by norm_num [defaultComponents]) (by norm_num [defaultComponents])
      (by norm_num [defaultComponents]) (by norm_num [defaultComponents])
      (by norm_num [defaultComponents])⟩

/-- Helper: the length of `linspace`. -/
lemma linspace_length (a b : ℚ) (n : ℕ) : (linspace a b n).length = n := by
  simp [linspace]

/-- Helper: the length of `logspace`. -/
lemma logspace_length (a b : ℚ) (n : ℕ) : (logspace a b n).length = n := by
  simp [logspace, linspace]

/-- Helper: the `i`-th sample of `linspace`. -/
lemma linspace_get? (a b : ℚ) {n i : ℕ} (h : i < n) :
    (linspace a b n).get? i = some (a + i * (b - a) / ((n : ℚ) - 1)) := by
  simp [linspace, List.getElem?_range h]

/-- Helper: the `i`-th sample of `logspace`. -/
lemma logspace_get? (a b : ℚ) {n i : ℕ} (h : i < n) :
    (logspace a b n).get? i =
      some ((10 : ℝ) ^ ((a + i * (b - a) / ((n : ℚ) - 1) : ℚ) : ℝ)) := by
  have hl := linspace_get? a b h
  rw [List.get?_eq_getElem?] at hl ⊢
  simp [logspace, hl]

/-- Helper: `logspace a b n` is strictly increasing when `a < b`. -/
lemma logspace_pairwise (a b : ℚ) (hab : a < b) (n : ℕ) :
    (logspace a b n).Pairwise (· < ·) := by
  unfold logspace linspace
  rw [List.pairwise_map, List.pairwise_map]
  refine (List.pairwise_lt_range n).imp_of_mem ?_
  intro i j hi hj hij
  rw [List.mem_range] at hj
  have h2 : 1 ≤ j := Nat.one_le_iff_ne_zero.mpr (by omega)
  have hd : (0 : ℚ) < (n : ℚ) - 1 := by
    have : (2 : ℚ) ≤ (n : ℚ) := by exact_mod_cast Nat.succ_le_of_lt (by omega)
    linarith
  refine (Real.rpow_lt_rpow_left_iff (by norm_num : (1 : ℝ) < 10)).mpr ?_
  refine Rat.cast_lt.mpr ?_
  have hij' : (i : ℚ) < j := by exact_mod_cast hij
  have hba : (0 : ℚ) < b - a := sub_pos.mpr hab
  have hmul : (i : ℚ) * (b - a) < (j : ℚ) * (b - a) :=
    mul_lt_mul_of_pos_right hij' hba
  exact add_lt_add_left ((div_lt_div_iff_of_pos_right hd).mpr hmul) a

/-- C4: for every sample count `n ≥ 1` (whenever the frequency response is
computed at all, i.e. `Rin * C1` is nonzero), the frequency, gain and
phase sequences each have length exactly `n`; the frequencies are
log-spaced (`i`-th frequency `10 ^ (1 + i * (6 - 1) / (n - 1))`, running
from `10 = 10 ^ 1`, and for `n ≥ 2` up to `1000000 = 10 ^ 6`) and strictly
increasing; the source's own call fixes the sample count at 1000
(`calculate_frequency_response_default`). -/
theorem frequency_response_length_and_spacing (s : CEAState) (n : ℕ)
    (hn : 1 ≤ n) (hz : ¬ s.ac.Rin * s.comp.C1 = 0) :
    ∃ fs gs ps, calculate_frequency_response s n = .ok (fs, gs, ps) ∧
      fs.length = n ∧ gs.length = n ∧ ps.length = n ∧
      fs.Pairwise (· < ·) ∧
      fs.get? 0 = some 10 ∧
      (2 ≤ n → fs.get? (n - 1) = some 1000000) ∧
      (∀ i, i < n →
        fs.get? i =
          some ((10 : ℝ) ^ ((1 + (i : ℚ) * (6 - 1) / ((n : ℚ) - 1) : ℚ) : ℝ))) ∧
      calculate_frequency_response_default s = calculate_frequency_response s 1000 := by
  refine ⟨logspace 1 6 n, _, _, by rw [calculate_frequency_response, if_neg hz],
    logspace_length 1 6 n, by simp [logspace, linspace], by simp [logspace, linspace],
    logspace_pairwise 1 6 (by norm_num) n, ?_, ?_, ?_, rfl⟩
  · rw [logspace_get? 1 6 (lt_of_lt_of_le one_pos hn)]
    have hexp : (1 + (0 : ℕ) * ((6 : ℚ) - 1) / ((n : ℚ) - 1) : ℚ) = 1 := by
      norm_num
    rw [hexp]
    norm_num
  · intro h2
    rw [logspace_get? 1 6 (by omega : n - 1 < n)]
    have hd : ((n : ℚ) - 1) ≠ 0 := by
      have h2' : (2 : ℚ) ≤ (n : ℚ) := by exact_mod_cast h2
      intro hc
      linarith
    have hcast : ((n - 1 : ℕ) : ℚ) = (n : ℚ) - 1 := by
      rw [Nat.cast_sub (by omega : 1 ≤ n)]
      norm_num
    have hexp : (1 + ((n - 1 : ℕ) : ℚ) * ((6 : ℚ) - 1) / ((n : ℚ) - 1) : ℚ) = 6 := by
      rw [hcast]
      field_simp
    rw [hexp]
    rw [show (((6 : ℚ) : ℝ)) = ((6 : ℕ) : ℝ) by norm_num, Real.rpow_natCast]
    norm_num
  · intro i hi
    exact logspace_get? 1 6 hi

/-- Witness for C4 at the default state with the default sample count. -/
theorem frequency_response_length_and_spacing_witness :
    1 ≤ 1000 ∧
    ¬ default_state.ac.Rin * default_state.comp.C1 = 0 ∧
    (∃ fs gs ps,
      calculate_frequency_response default_state 1000 = .ok (fs, gs, ps) ∧
      fs.length = 1000 ∧ gs.length = 1000 ∧ ps.length = 1000 ∧
      fs.Pairwise (· < ·) ∧
      fs.get? 0 = some 10 ∧
      (2 ≤ 1000 → fs.get? (1000 - 1) = some 1000000) ∧
      (∀ i, i < 1000 →
        fs.get? i =
          some ((10 : ℝ) ^
            ((1 + (i : ℚ) * (6 - 1) / ((1000 : ℚ) - 1) : ℚ) : ℝ))) ∧
      calculate_frequency_response_default default_state =
        calculate_frequency_response default_state 1000) :=
  have hz : ¬ default_state.ac.Rin * default_state.comp.C1 = 0 := by
    norm_num [default_state, default_ac, defaultComponents]
  ⟨by norm_num, hz,
    frequency_response_length_and_spacing default_state 1000 (by norm_num) hz⟩

/-- C5: for positive `Rin` and `C1` and every sampled frequency `f`, the
gain sample equals
`20 * log10 (max (|AvBypassed| * (f / sqrt (f^2 + fc_low^2)) *
(fc_high / sqrt (f^2 + fc_high^2))) 1e-10)` with
`fc_low = 1 / (2 * pi * Rin * C1)` and `fc_high = 1e6`, every gain sample
is at least `20 * log10 1e-10`, and the phase sample equals
`-180 + atan (f / fc_low) * 180 / pi - atan (f / fc_high) * 180 / pi`. -/
theorem frequency_response_pointwise (s : CEAState) (n : ℕ)
    (hR : 0 < s.ac.Rin) (hC : 0 < s.comp.C1) :
    ∃ fs gs ps, calculate_frequency_response s n = .ok (fs, gs, ps) ∧
      ∀ i f, fs.get? i = some f →
        gs.get? i = some (20 * Real.logb 10 (max
          (|(s.ac.Av_bypassed : ℝ)| *
            (f / Real.sqrt (f ^ 2 +
              (1 / (2 * Real.pi * (s.ac.Rin : ℝ) * (s.comp.C1 : ℝ))) ^ 2)) *
            (fc_high / Real.sqrt (f ^ 2 + fc_high ^ 2)))
          (1 / 10 ^ 10))) ∧
        (∀ g, gs.get? i = some g → 20 * Real.logb 10 (1 / 10 ^ 10) ≤ g) ∧
        ps.get? i = some (-180 +
          Real.arctan (f /
            (1 / (2 * Real.pi * (s.ac.Rin : ℝ) * (s.comp.C1 : ℝ)))) * 180 /
            Real.pi -
          Real.arctan (f / fc_high) * 180 / Real.pi) := by
  have hz : ¬ s.ac.Rin * s.comp.C1 = 0 := ne_of_gt (mul_pos hR hC)
  rw [calculate_frequency_response, if_neg hz]
  refine ⟨_, _, _, rfl, ?_⟩
  intro i f hf
  rw [List.get?_eq_getElem?] at hf
  constructor
  · rw [List.get?_eq_getElem?, List.getElem?_map, hf, Option.map_some']
  constructor
  · intro g hg
    rw [List.get?_eq_getElem?, List.getElem?_map, hf, Option.map_some',
      Option.some_inj] at hg
    subst hg
    refine mul_le_mul_of_nonneg_left ?_ (by norm_num : (0 : ℝ) ≤ 20)
    exact Real.logb_le_logb_of_le (by norm_num : (1 : ℝ) < 10)
      (by norm_num : (0 : ℝ) < 1 / 10 ^ 10) (le_max_right _ _)
  · rw [List.get?_eq_getElem?, List.getElem?_map, hf, Option.map_some']

/-- Witness for C5 at the default state with the default sample count. -/
theorem frequency_response_pointwise_witness :
    0 < default_state.ac.Rin ∧ 0 < default_state.comp.C1 ∧
    (∃ fs gs ps,
      calculate_frequency_response default_state 1000 = .ok (fs, gs, ps) ∧
      ∀ i f, fs.get? i = some f →
        gs.get? i = some (20 * Real.logb 10 (max
          (|(default_state.ac.Av_bypassed : ℝ)| *
            (f / Real.sqrt (f ^ 2 +
              (1 / (2 * Real.pi * (default_state.ac.Rin : ℝ) *
                (default_state.comp.C1 : ℝ))) ^ 2)) *
            (fc_high / Real.sqrt (f ^ 2 + fc_high ^ 2)))
          (1 / 10 ^ 10))) ∧
        (∀ g, gs.get? i = some g → 20 * Real.logb 10 (1 / 10 ^ 10) ≤ g) ∧
        ps.get? i = some (-180 +
          Real.arctan (f /
            (1 / (2 * Real.pi * (default_state.ac.Rin : ℝ) *
              (default_state.comp.C1 : ℝ)))) * 180 / Real.pi -
          Real.arctan (f / fc_high) * 180 / Real.pi)) :=
  have hR : 0 < default_state.ac.Rin := by
    norm_num [default_state, default_ac]
  have hC : 0 < default_state.comp.C1 := by
    norm_num [default_state, defaultComponents]
  ⟨hR, hC, frequency_response_pointwise default_state 1000 hR hC⟩

/-- C6 counterexample: at sample count 1 (the claim quantifies over every
sample count), the returned time sequence is the single sample `[0]`,
which does not contain the right endpoint `5 / freq ≠ 0`; so the time
sequence does not span `[0, 5/freq]` inclusive of both endpoints. -/
theorem waveforms_single_sample_counterexample :
    get_waveforms default_state 1 =
      .ok ([0], [0], [0], [((-2911 : ℝ) / 200)]) ∧
    ¬ ((5 / default_state.comp.freq : ℚ) ∈ ([0] : List ℚ)) := by
  constructor
  · rw [get_waveforms, if_neg (by norm_num [default_state, defaultComponents])]
    simp only [default_state, defaultComponents, default_ac, default_op,
      linspace, show List.range 1 = [0] from rfl, List.map_cons, List.map_nil]
    norm_num [Real.sin_zero]
  · simp only [default_state, defaultComponents, List.mem_singleton]
    norm_num

/-- C6 (amended): for every sample count `n ≥ 2` and positive signal
frequency, `get_waveforms` returns a time sequence of `n` samples whose
first sample is `0` and whose last sample is exactly `5 / freq` (both
endpoints of `[0, 5/freq]` included), and three output sequences of
length `n`, index-aligned with the time sequence, with
`vin i = VinAmp * sin (2 * pi * freq * t i)`,
`vout_ac i = AvBypassed * vin i` and `vout_total i = VC + vout_ac i`.
(At `n = 1` the single time sample is `0` and the right endpoint is not
reached, see the counterexample.) -/
theorem waveforms_span_and_formulas (s : CEAState) (n : ℕ)
    (hf : 0 < s.comp.freq) (hn : 2 ≤ n) :
    ∃ t vin vout vt, get_waveforms s n = .ok (t, vin, vout, vt) ∧
      t.length = n ∧ vin.length = n ∧ vout.length = n ∧ vt.length = n ∧
      t.get? 0 = some 0 ∧
      t.get? (n - 1) = some (5 / s.comp.freq) ∧
      ∀ i x, t.get? i = some x →
        vin.get? i = some ((s.comp.Vin_amp : ℝ) *
          Real.sin (2 * Real.pi * (s.comp.freq : ℝ) * (x : ℝ))) ∧
        vout.get? i = some ((s.ac.Av_bypassed : ℝ) *
          ((s.comp.Vin_amp : ℝ) *
            Real.sin (2 * Real.pi * (s.comp.freq : ℝ) * (x : ℝ)))) ∧
        vt.get? i = some ((s.op.VC : ℝ) + (s.ac.Av_bypassed : ℝ) *
          ((s.comp.Vin_amp : ℝ) *
            Real.sin (2 * Real.pi * (s.comp.freq : ℝ) * (x : ℝ)))) := by
  have hz : ¬ s.comp.freq = 0 := ne_of_gt hf
  rw [get_waveforms, if_neg hz]
  refine ⟨_, _, _, _, rfl, linspace_length _ _ _, by simp [linspace],
    by simp [linspace], by simp [linspace], ?_, ?_, ?_⟩
  · rw [linspace_get? 0 (5 / s.comp.freq) (by omega : 0 < n)]
    norm_num
  · rw [linspace_get? 0 (5 / s.comp.freq) (by omega : n - 1 < n)]
    have hd : ((n : ℚ) - 1) ≠ 0 := by
      have h2' : (2 : ℚ) ≤ (n : ℚ) := by exact_mod_cast hn
      intro hc
      linarith
    have hcast : ((n - 1 : ℕ) : ℚ) = (n : ℚ) - 1 := by
      rw [Nat.cast_sub (by omega : 1 ≤ n)]
      norm_num
    have hexp : (0 + ((n - 1 : ℕ) : ℚ) * (5 / s.comp.freq - 0) / ((n : ℚ) - 1)
        : ℚ) = 5 / s.comp.freq := by
      rw [hcast]
      field_simp
      ring
    rw [hexp]
  · intro i x hx
    rw [List.get?_eq_getElem?] at hx
    refine ⟨?_, ?_, ?_⟩
    · rw [List.get?_eq_getElem?, List.getElem?_map, hx, Option.map_some']
    · rw [List.get?_eq_getElem?, List.getElem?_map, List.getElem?_map, hx,
        Option.map_some', Option.map_some']
    · rw [List.get?_eq_getElem?, List.getElem?_map, List.getElem?_map,
        List.getElem?_map, hx, Option.map_some', Option.map_some',
        Option.map_some']

/-- Witness for the amended C6 at the default state with the default
sample count. -/
theorem waveforms_span_and_formulas_witness :
    0 < default_state.comp.freq ∧ (2 ≤ 1000) ∧
    (∃ t vin vout vt,
      get_waveforms default_state 1000 = .ok (t, vin, vout, vt) ∧
      t.length = 1000 ∧ vin.length = 1000 ∧ vout.length = 1000 ∧
      vt.length = 1000 ∧
      t.get? 0 = some 0 ∧
      t.get? (1000 - 1) = some (5 / default_state.comp.freq) ∧
      ∀ i x, t.get? i = some x →
        vin.get? i = some ((default_state.comp.Vin_amp : ℝ) *
          Real.sin (2 * Real.pi * (default_state.comp.freq : ℝ) * (x : ℝ))) ∧
        vout.get? i = some ((default_state.ac.Av_bypassed : ℝ) *
          ((default_state.comp.Vin_amp : ℝ) *
            Real.sin (2 * Real.pi * (default_state.comp.freq : ℝ) * (x : ℝ)))) ∧
        vt.get? i = some ((default_state.op.VC : ℝ) +
          (default_state.ac.Av_bypassed : ℝ) *
          ((default_state.comp.Vin_amp : ℝ) *
            Real.sin (2 * Real.pi * (default_state.comp.freq : ℝ) * (x : ℝ))))) :=
  have hf : 0 < default_state.comp.freq := by
    norm_num [default_state, defaultComponents]
  ⟨hf, by norm_num,
    waveforms_span_and_formulas default_state 1000 hf (by norm_num)⟩

/-- The claim C7 input: `RB = 0`, `beta = 0`, `RE = 0`, all other fields
at their defaults. -/
def zeroBiasComponents : CEAComponents :=
  ⟨12, 0, 4700, 0, 1 / 100000, 1 / 100000, 1 / 10000, 0, 7 / 10, 1 / 100, 1000⟩

/-- C7: at `RB = 0`, `beta = 0`, `RE = 0` the evaluation fails with a
`ZeroDivisionError` (already at the Thevenin line `Vcc * RB / (RB + RB)`,
before the bias denominator `RB + beta * RE` is reached) and returns no
numeric operating point at all; no `InvalidParameterError` guard exists in
the code. -/
theorem zero_bias_denominator_raises :
    calculate_operating_point zeroBiasComponents = .error .zeroDivision ∧
    calculate_operating_point zeroBiasComponents ≠ .error .invalidParameter ∧
    ∀ op, calculate_operating_point zeroBiasComponents ≠ .ok op := by
  have h1 : calculate_operating_point zeroBiasComponents =
      .error .zeroDivision := by
    rw [calculate_operating_point,
      if_pos (show zeroBiasComponents.RB + zeroBiasComponents.RB = 0 by
        norm_num [zeroBiasComponents])]
  refine ⟨h1, ?_, ?_⟩
  · rw [h1]
    simp
  · intro op h
    rw [h1] at h
    exact Except.noConfusion h

/-- The operating point with the vestigial Thevenin pair removed: only the
quantities the rest of the model ever reads. -/
structure OperatingPointNoThev where
  IB : ℚ
  IC : ℚ
  IE : ℚ
  VE : ℚ
  VB : ℚ
  VC : ℚ
  VCE : ℚ
deriving DecidableEq

/-- Modelled from the spec: the variant of `calculate_operating_point` in
which the (immediately discarded) `VTH`/`RTH` computation is removed and
the base-current formula uses `RB` directly, as the claim describes. -/
def calculate_operating_point_noThevenin (c : CEAComponents) :
    Except PyError OperatingPointNoThev :=
  if c.RB + c.beta * c.RE = 0 then .error .zeroDivision
  else
    let IB := (c.Vcc - c.VBE) / (c.RB + c.beta * c.RE)
    let IC := c.beta * IB
    let IE := IC + IB
    let VE := IE * c.RE
    .ok ⟨IB, IC, IE, VE, c.VBE + VE, c.Vcc - IC * c.RC,
      (c.Vcc - IC * c.RC) - VE⟩

/-- Projection dropping the Thevenin pair from an operating point. -/
def OperatingPoint.forgetThevenin (op : OperatingPoint) :
    OperatingPointNoThev :=
  ⟨op.IB, op.IC, op.IE, op.VE, op.VB, op.VC, op.VCE⟩

/-- Components with `RB = 0` but a nonzero bias denominator
(`beta = 100`, `RE = 1000`, other fields default). -/
def rbZeroComponents : CEAComponents :=
  ⟨12, 0, 4700, 1000, 1 / 100000, 1 / 100000, 1 / 10000, 100, 7 / 10,
    1 / 100, 1000⟩

/-- C8 counterexample: at `RB = 0` (bias denominator `beta * RE` nonzero)
the original model fails with a `ZeroDivisionError` raised by the very
`VTH = Vcc * RB / (RB + RB)` computation the claim calls removable, while
the variant without it succeeds — so removing the Thevenin computation
does not produce identical outputs for every `CEAComponents` value. -/
theorem thevenin_removal_counterexample :
    calculate_operating_point rbZeroComponents = .error .zeroDivision ∧
    calculate_operating_point_noThevenin rbZeroComponents =
      .ok ⟨113 / 1000000, 113 / 10000, 11413 / 1000000, 11413 / 1000,
        12113 / 1000, -4111 / 100, -52523 / 1000⟩ := by
  constructor
  · rw [calculate_operating_point,
      if_pos (show rbZeroComponents.RB + rbZeroComponents.RB = 0 by
        norm_num [rbZeroComponents])]
  · norm_num [calculate_operating_point_noThevenin, rbZeroComponents]

/-- C8 (amended): for every `CEAComponents` value with `RB ≠ 0` (so that
the Thevenin division itself is defined), removing the `VTH`/`RTH`
computation changes nothing: the variant operating point is exactly the
original one with the Thevenin pair forgotten, the AC analysis depends on
the operating point only through its non-Thevenin fields, and the
frequency response and waveforms depend on the state only through the
components, the non-Thevenin operating-point fields and the AC
parameters. -/
theorem thevenin_independence (c : CEAComponents) (h : c.RB ≠ 0) :
    Except.map OperatingPoint.forgetThevenin (calculate_operating_point c) =
      calculate_operating_point_noThevenin c ∧
    (∀ op op' : OperatingPoint,
      op.forgetThevenin = op'.forgetThevenin →
      calculate_ac_analysis c op = calculate_ac_analysis c op') ∧
    (∀ s s' : CEAState, s.comp = s'.comp →
      s.op.forgetThevenin = s'.op.forgetThevenin → s.ac = s'.ac →
      (∀ n, calculate_frequency_response s n =
        calculate_frequency_response s' n) ∧
      (∀ n, get_waveforms s n = get_waveforms s' n)) := by
  refine ⟨?_, ?_, ?_⟩
  · have h2 : ¬ c.RB + c.RB = 0 := by
      intro hc
      apply h
      linarith
    rw [calculate_operating_point, calculate_operating_point_noThevenin,
      if_neg h2]
    by_cases hden : c.RB + c.beta * c.RE = 0
    · rw [if_pos hden, if_pos hden]
      rfl
    · rw [if_neg hden, if_neg hden]
      rfl
  · intro op op' hforget
    have hIC : op.IC = op'.IC :=
      congrArg OperatingPointNoThev.IC hforget
    simp only [calculate_ac_analysis, hIC]
  · intro s s' hcomp hop hac
    have hVC : s.op.VC = s'.op.VC :=
      congrArg OperatingPointNoThev.VC hop
    constructor
    · intro n
      simp only [calculate_frequency_response, hcomp, hac]
    · intro n
      simp only [get_waveforms, hcomp, hac, hVC]

/-- Witness for the amended C8 at the default components. -/
theorem thevenin_independence_witness :
    defaultComponents.RB ≠ 0 ∧
    Except.map OperatingPoint.forgetThevenin
        (calculate_operating_point defaultComponents) =
      calculate_operating_point_noThevenin defaultComponents :=
  have h : defaultComponents.RB ≠ 0 := by norm_num [defaultComponents]
  ⟨h, (thevenin_independence defaultComponents h).1⟩

/-- The full pipeline from components to the frequency response, as the
dashboard runs it: construct the simulator (`calculate_all`), then call
`calculate_frequency_response`. -/
noncomputable def frequency_response_of (c : CEAComponents) (n : ℕ) :
    Except PyError (List ℝ × List ℝ × List ℝ) :=
  match calculate_operating_point c with
  | .error e => .error e
  | .ok op =>
    match calculate_ac_analysis c op with
    | .error e => .error e
    | .ok ac => calculate_frequency_response ⟨c, op, ac⟩ n

/-- C9: two component sets that agree on everything except the capacitor
fields `C2` and `CE` produce identical frequency responses (frequencies,
gains and phases), the high corner being the fixed constant
`fc_high = 1000000` in both runs: the frequency response never reads `C2`
or `CE`. -/
theorem frequency_response_capacitor_independence
    (p q : CEAComponents) (n : ℕ)
    (hVcc : p.Vcc = q.Vcc) (hRB : p.RB = q.RB) (hRC : p.RC = q.RC)
    (hRE : p.RE = q.RE) (hC1 : p.C1 = q.C1) (hbeta : p.beta = q.beta)
    (hVBE : p.VBE = q.VBE) (hVin : p.Vin_amp = q.Vin_amp)
    (hfreq : p.freq = q.freq) :
    frequency_response_of p n = frequency_response_of q n ∧
    fc_high = 1000000 := by
  obtain ⟨pVcc, pRB, pRC, pRE, pC1, pC2, pCE, pbeta, pVBE, pVin, pfreq⟩ := p
  obtain ⟨qVcc, qRB, qRC, qRE, qC1, qC2, qCE, qbeta, qVBE, qVin, qfreq⟩ := q
  simp only at hVcc hRB hRC hRE hC1 hbeta hVBE hVin hfreq
  subst hVcc hRB hRC hRE hC1 hbeta hVBE hVin hfreq
  refine ⟨?_, rfl⟩
  have hop : calculate_operating_point
        ⟨pVcc, pRB, pRC, pRE, pC1, qC2, qCE, pbeta, pVBE, pVin, pfreq⟩ =
      calculate_operating_point
        ⟨pVcc, pRB, pRC, pRE, pC1, pC2, pCE, pbeta, pVBE, pVin, pfreq⟩ := rfl
  simp only [frequency_response_of, hop]
  cases hcase : calculate_operating_point
      ⟨pVcc, pRB, pRC, pRE, pC1, pC2, pCE, pbeta, pVBE, pVin, pfreq⟩ with
  | error e => rfl
  | ok op =>
    have hac : calculate_ac_analysis
          ⟨pVcc, pRB, pRC, pRE, pC1, qC2, qCE, pbeta, pVBE, pVin, pfreq⟩ op =
        calculate_ac_analysis
          ⟨pVcc, pRB, pRC, pRE, pC1, pC2, pCE, pbeta, pVBE, pVin, pfreq⟩ op :=
      rfl
    simp only [hac]
    cases hcase2 : calculate_ac_analysis
        ⟨pVcc, pRB, pRC, pRE, pC1, pC2, pCE, pbeta, pVBE, pVin, pfreq⟩ op with
    | error e => rfl
    | ok ac =>
      have hfr : calculate_frequency_response
            ⟨⟨pVcc, pRB, pRC, pRE, pC1, qC2, qCE, pbeta, pVBE, pVin, pfreq⟩,
              op, ac⟩ n =
          calculate_frequency_response
            ⟨⟨pVcc, pRB, pRC, pRE, pC1, pC2, pCE, pbeta, pVBE, pVin, pfreq⟩,
              op, ac⟩ n := rfl
      simp only [hfr]

/-- Components equal to the defaults except for the unused capacitors
(`C2 = 1`, `CE = 2`). -/
def alteredCapComponents : CEAComponents :=
  ⟨12, 100000, 4700, 1000, 1 / 100000, 1, 2, 100, 7 / 10, 1 / 100, 1000⟩

/-- Witness for C9: the default components and `alteredCapComponents`
differ only in `C2` and `CE` and give the same frequency response. -/
theorem frequency_response_capacitor_independence_witness :
    defaultComponents.Vcc = alteredCapComponents.Vcc ∧
    defaultComponents.RB = alteredCapComponents.RB ∧
    defaultComponents.RC = alteredCapComponents.RC ∧
    defaultComponents.RE = alteredCapComponents.RE ∧
    defaultComponents.C1 = alteredCapComponents.C1 ∧
    defaultComponents.beta = alteredCapComponents.beta ∧
    defaultComponents.VBE = alteredCapComponents.VBE ∧
    defaultComponents.Vin_amp = alteredCapComponents.Vin_amp ∧
    defaultComponents.freq = alteredCapComponents.freq ∧
    (frequency_response_of defaultComponents 1000 =
        frequency_response_of alteredCapComponents 1000 ∧
      fc_high = 1000000) :=
  ⟨rfl, rfl, rfl, rfl, rfl, rfl, rfl, rfl, rfl,
    frequency_response_capacitor_independence defaultComponents
      alteredCapComponents 1000 rfl rfl rfl rfl rfl rfl rfl rfl rfl⟩

/-- C10: with sample count 0 (and any state whose signal frequency is
nonzero, so that the scalar division `5 / freq` succeeds),
`get_waveforms` does not fail: it returns four empty sequences. -/
theorem waveforms_zero_sample_count (s : CEAState)
    (h : ¬ s.comp.freq = 0) :
    get_waveforms s 0 = .ok ([], [], [], []) := by
  rw [get_waveforms, if_neg h]
  simp [linspace]

/-- Witness for C10 at the default state. -/
theorem waveforms_zero_sample_count_witness :
    ¬ default_state.comp.freq = 0 ∧
    get_waveforms default_state 0 = .ok ([], [], [], []) :=
  have h : ¬ default_state.comp.freq = 0 := by
    norm_num [default_state, defaultComponents]
  ⟨h, waveforms_zero_sample_count default_state h⟩

